import Mathlib

/-!
Verification of the deck-datavis segment pipeline and color utilities.

JavaScript numbers are modelled as exact rationals (`ℚ`); `Math.round x` is
modelled as `⌊x + 1/2⌋` (JS rounds ties toward +∞).  Array indexing is
modelled with `List.getD` (out-of-range reads never occur under the
well-formed-grid hypotheses of the theorems below).  A zero-row grid makes
`meshToColoredSegments` evaluate `Z[0].length` on `undefined`, which throws
a `TypeError`; this is modelled by returning `none`.  A separate binary
rounding model (`floatRound`) is introduced further down, used only for the
one claim that is explicitly about bit-for-bit IEEE-754 double behaviour.
-/

namespace DeckDatavis

/-- A four-slot numeric buffer: both `hslColorBuff` `[h, s, l, alpha]` and
`rgbColorBuff` `[r, g, b, alpha]` from `color-utils`. -/
structure Buf4 where
  c0 : ℚ
  c1 : ℚ
  c2 : ℚ
  c3 : ℚ
deriving DecidableEq, Repr

/-- JS `Math.round`: nearest integer, ties toward +∞. -/
def jsRound (q : ℚ) : ℤ := ⌊q + 1/2⌋

/-- From `color-utils`: `computeRGBComponent(p, q, t)`, the standard
hue-sector piecewise function of HSL→RGB conversion. -/
def computeRGBComponent (p q t0 : ℚ) : ℚ :=
  let t := if t0 < 0 then t0 + 1 else if t0 > 1 then t0 - 1 else t0
  if t < 1/6 then p + (q - p) * 6 * t
  else if t < 1/2 then q
  else if t < 2/3 then p + (q - p) * (2/3 - t) * 6
  else p

/-- From `color-utils`: `hslToRgbBuff(hslColorIn, rgbColorOut)`.  The source
mutates `rgbColorOut` in place and returns the same reference; the embedding
passes the buffer by value and returns the written buffer. -/
def hslToRgbBuff (hslColorIn : Buf4) (rgbColorOut : Buf4) : Buf4 :=
  let normalizedHue := hslColorIn.c0 / 360
  -- alpha unaffected: rgbColorOut[3] = hslColorIn[3]
  let buf := { rgbColorOut with c3 := hslColorIn.c3 }
  if hslColorIn.c1 = 0 then
    -- rgbColorOut[0] = rgbColorOut[1] = rgbColorOut[2] = Math.round(l * 255)
    let v : ℚ := (jsRound (hslColorIn.c2 * 255) : ℚ)
    { buf with c0 := v, c1 := v, c2 := v }
  else
    let q := if hslColorIn.c2 < 1/2 then hslColorIn.c2 * (1 + hslColorIn.c1)
             else hslColorIn.c2 + hslColorIn.c1 - hslColorIn.c2 * hslColorIn.c1
    let p := 2 * hslColorIn.c2 - q
    { buf with
      c0 := (jsRound (computeRGBComponent p q (normalizedHue + 1/3) * 255) : ℚ),
      c1 := (jsRound (computeRGBComponent p q normalizedHue * 255) : ℚ),
      c2 := (jsRound (computeRGBComponent p q (normalizedHue - 1/3) * 255) : ℚ) }

/-- The buffer contents `hslToRgbBuff` defaults to (`= [0, 0, 0, 255]`). -/
def freshRgbBuff : Buf4 := ⟨0, 0, 0, 255⟩

/-- Value written by `hslToRgbBuff` (independent of the destination buffer,
which is fully overwritten; see `hslToRgbBuff_buffer_independent`). -/
def hslToRgbVal (c : Buf4) : Buf4 := hslToRgbBuff c freshRgbBuff

/-- From `App.tsx`: `lerpHsl(a, b, t)` — componentwise linear interpolation
of h, s, l; alpha carried from `a`. -/
def lerpHsl (a b : Buf4) (t : ℚ) : Buf4 :=
  ⟨a.c0 + (b.c0 - a.c0) * t,
   a.c1 + (b.c1 - a.c1) * t,
   a.c2 + (b.c2 - a.c2) * t,
   a.c3⟩

/-- A 3D point `[x, y, z]`. -/
abbrev Point : Type := ℚ × ℚ × ℚ

/-- From `App.tsx`: `lerp3(a, b, t)` — componentwise linear interpolation of
two 3D points. -/
def lerp3 (a b : Point) (t : ℚ) : Point :=
  (a.1 + (b.1 - a.1) * t,
   a.2.1 + (b.2.1 - a.2.1) * t,
   a.2.2 + (b.2.2 - a.2.2) * t)

/-- A gradient: a pair of HSL endpoints. -/
structure Gradient where
  high : Buf4
  low : Buf4
deriving DecidableEq, Repr

/-- The four directional/side gradients. -/
structure GradientState where
  xAbove : Gradient
  xBelow : Gradient
  yAbove : Gradient
  yBelow : Gradient
deriving DecidableEq, Repr

/-- Direction tag of a grid edge (`'x' | 'y'` in `processSegment`). -/
inductive Dir where
  | x : Dir
  | y : Dir
deriving DecidableEq, Repr

/-- `GRADIENT_SUBDIVISIONS = 8`. -/
def GRADIENT_SUBDIVISIONS : ℕ := 8

/-- From `meshToColoredSegments`: the closure `getGradientColor(z, gradient)`
(parameters `zMin`, `zRange` are captured from the enclosing scope).
The value-level model of `hslToRgbBuff(lerpHsl(...), acquireColorBuffer())`. -/
def getGradientColor (zMin zRange : ℚ) (z : ℚ) (gradient : Gradient) : Buf4 :=
  let t := if 0 < zRange then (z - zMin) / zRange else (1/2 : ℚ)
  hslToRgbVal (lerpHsl gradient.low gradient.high t)

/-- A produced colored line segment. -/
structure ColoredSegment where
  sourcePosition : Point
  targetPosition : Point
  color : Buf4
deriving DecidableEq, Repr

/-- From `meshToColoredSegments`: the closure `addSubSegment(p1, p2, gradient)`
— one pushed segment, colored by midpoint z. -/
def addSubSegment (zMin zRange : ℚ) (p1 p2 : Point) (gradient : Gradient) :
    ColoredSegment :=
  let midZ := (p1.2.2 + p2.2.2) / 2
  ⟨p1, p2, getGradientColor zMin zRange midZ gradient⟩

/-- From `meshToColoredSegments`: the closure `subdivideSegment(source, target,
gradient)` — pushes `GRADIENT_SUBDIVISIONS` sub-segments, the i-th spanning
parameters `i/GRADIENT_SUBDIVISIONS` to `(i+1)/GRADIENT_SUBDIVISIONS`. -/
def subdivideSegment (zMin zRange : ℚ) (source target : Point)
    (gradient : Gradient) : List ColoredSegment :=
  (List.range GRADIENT_SUBDIVISIONS).map fun (i : ℕ) =>
    let t1 : ℚ := (i : ℚ) / (GRADIENT_SUBDIVISIONS : ℚ)
    let t2 : ℚ := ((i : ℚ) + 1) / (GRADIENT_SUBDIVISIONS : ℚ)
    addSubSegment zMin zRange (lerp3 source target t1) (lerp3 source target t2)
      gradient

/-- The ternary `direction === 'x' ? gradients.xBelow : gradients.yBelow`
from `processSegment`. -/
def gradientBelowFor (direction : Dir) (gradients : GradientState) : Gradient :=
  match direction with
  | Dir.x => gradients.xBelow
  | Dir.y => gradients.yBelow

/-- The ternary `direction === 'x' ? gradients.xAbove : gradients.yAbove`
from `processSegment`. -/
def gradientAboveFor (direction : Dir) (gradients : GradientState) : Gradient :=
  match direction with
  | Dir.x => gradients.xAbove
  | Dir.y => gradients.yAbove

/-- The crossing fraction `t = (zCutoff - sourceZ) / (targetZ - sourceZ)`
from the straddle branch of `processSegment`. -/
def crossFraction (source target : Point) (zCutoff : ℚ) : ℚ :=
  (zCutoff - source.2.2) / (target.2.2 - source.2.2)

/-- The crossing point `midPoint = lerp3(source, target, t)` from the
straddle branch of `processSegment` — all three coordinates interpolated. -/
def crossingPoint (source target : Point) (zCutoff : ℚ) : Point :=
  lerp3 source target (crossFraction source target zCutoff)

/-- From `meshToColoredSegments`: the closure `processSegment(source, target,
direction)` — classify both endpoints against the cutoff; same side means one
uniform subdivision, otherwise split at the interpolated crossing point and
subdivide both halves. -/
def processSegment (zCutoff zMin zRange : ℚ) (gradients : GradientState)
    (source target : Point) (direction : Dir) : List ColoredSegment :=
  let sourceZ := source.2.2
  let targetZ := target.2.2
  let sourceAbove := decide (sourceZ > zCutoff)
  let targetAbove := decide (targetZ > zCutoff)
  let gradientBelow := gradientBelowFor direction gradients
  let gradientAbove := gradientAboveFor direction gradients
  if sourceAbove = targetAbove then
    -- Entire segment is on one side of cutoff
    let gradient := if sourceAbove then gradientAbove else gradientBelow
    subdivideSegment zMin zRange source target gradient
  else
    -- Segment crosses the cutoff: split it first, then subdivide each half
    let midPoint := crossingPoint source target zCutoff
    let sourceGradient := if sourceAbove then gradientAbove else gradientBelow
    let targetGradient := if targetAbove then gradientAbove else gradientBelow
    subdivideSegment zMin zRange source midPoint sourceGradient
      ++ subdivideSegment zMin zRange midPoint target targetGradient

/-- From `App.tsx` `hoverVertices`: the vertex pushed for an edge that
crosses the cutoff — x and y linearly interpolated at
`t = (zCutoff - z0) / (z1 - z0)`, z written as the literal `zCutoff`. -/
def hoverCrossingVertex (p0 p1 : Point) (zCutoff : ℚ) : Point :=
  let t := (zCutoff - p0.2.2) / (p1.2.2 - p0.2.2)
  (p0.1 + (p1.1 - p0.1) * t, p0.2.1 + (p1.2.1 - p0.2.1) * t, zCutoff)

/-- The grid vertex `(X[j][i], Y[j][i], Z[j][i])`. -/
def vertexAt (X Y Z : List (List ℚ)) (j i : ℕ) : Point :=
  ((X.getD j []).getD i 0, (Y.getD j []).getD i 0, (Z.getD j []).getD i 0)

/-- Body of `meshToColoredSegments` after `rows`/`cols` have been read:
the X-direction double loop followed by the Y-direction double loop,
in source iteration order. -/
def fillSegmentsCore (X Y Z : List (List ℚ)) (zCutoff zMin zRange : ℚ)
    (gradients : GradientState) (rows cols : ℕ) : List ColoredSegment :=
  ((List.range rows).flatMap fun j =>
    (List.range (cols - 1)).flatMap fun i =>
      processSegment zCutoff zMin zRange gradients
        (vertexAt X Y Z j i) (vertexAt X Y Z j (i + 1)) Dir.x)
  ++ ((List.range (rows - 1)).flatMap fun j =>
    (List.range cols).flatMap fun i =>
      processSegment zCutoff zMin zRange gradients
        (vertexAt X Y Z j i) (vertexAt X Y Z (j + 1) i) Dir.y)

/-- From `App.tsx`: `meshToColoredSegments(X, Y, Z, zCutoff, zMin, zMax,
gradients)`.  On a zero-row grid the source evaluates `Z[0].length` with
`Z[0] === undefined` and throws a `TypeError`; this is the `none` case. -/
def meshToColoredSegments (X Y Z : List (List ℚ)) (zCutoff zMin zMax : ℚ)
    (gradients : GradientState) : Option (List ColoredSegment) :=
  match Z with
  | [] => none
  | z0 :: _ =>
    some (fillSegmentsCore X Y Z zCutoff zMin (zMax - zMin) gradients
      Z.length z0.length)

/-! ### Edge bookkeeping for the counting claims -/

/-- `totalEdges = rows·(cols−1) + (rows−1)·cols`. -/
def totalEdges (rows cols : ℕ) : ℕ := rows * (cols - 1) + (rows - 1) * cols

/-- An edge identifier: direction tag plus the `(j, i)` loop indices of its
first endpoint. -/
abbrev EdgeId : Type := Dir × ℕ × ℕ

/-- The edges visited by `meshToColoredSegments`, in iteration order: all
X-direction edges (row by row), then all Y-direction edges. -/
def edgeList (rows cols : ℕ) : List EdgeId :=
  ((List.range rows).flatMap fun j =>
    (List.range (cols - 1)).map fun i => (Dir.x, j, i))
  ++ ((List.range (rows - 1)).flatMap fun j =>
    (List.range cols).map fun i => (Dir.y, j, i))

/-- Endpoints of an edge: `(j,i)`–`(j,i+1)` for X-direction edges,
`(j,i)`–`(j+1,i)` for Y-direction edges. -/
def edgeEndpoints (X Y Z : List (List ℚ)) (e : EdgeId) : Point × Point :=
  match e with
  | (Dir.x, j, i) => (vertexAt X Y Z j i, vertexAt X Y Z j (i + 1))
  | (Dir.y, j, i) => (vertexAt X Y Z j i, vertexAt X Y Z (j + 1) i)

/-- Whether an edge straddles the cutoff: exactly one endpoint has
`z > zCutoff`. -/
def edgeStraddles (X Y Z : List (List ℚ)) (zCutoff : ℚ) (e : EdgeId) : Bool :=
  decide ((edgeEndpoints X Y Z e).1.2.2 > zCutoff)
    != decide ((edgeEndpoints X Y Z e).2.2.2 > zCutoff)

/-- Number of straddling edges of the grid. -/
def straddlingEdges (X Y Z : List (List ℚ)) (zCutoff : ℚ) (rows cols : ℕ) :
    ℕ :=
  (edgeList rows cols).countP (edgeStraddles X Y Z zCutoff)

/-- A concrete gradient configuration (the default `xBelow`/`xAbove` pair of
the source, reused on both axes), used by the concrete witnesses below. -/
def sampleGradients : GradientState :=
  ⟨⟨⟨200, 2/5, 3/4, 255⟩, ⟨200, 1/2, 9/20, 255⟩⟩,
   ⟨⟨220, 3/5, 11/20, 255⟩, ⟨220, 7/10, 1/4, 255⟩⟩,
   ⟨⟨200, 2/5, 3/4, 255⟩, ⟨200, 1/2, 9/20, 255⟩⟩,
   ⟨⟨220, 3/5, 11/20, 255⟩, ⟨220, 7/10, 1/4, 255⟩⟩⟩

/-! ### IEEE-754 double-precision model

Used only for the claim about bit-for-bit floating-point behaviour of the
crossing-point computation.  A finite double is represented as a
significand/exponent pair `(m, e) : ℤ × ℤ` denoting `m · 2^e`; each
operation computes the exact value and rounds it to 53 significant bits
with round-to-nearest, ties-to-even — IEEE-754 binary64 with unbounded
exponent range (no overflow and no subnormals, which is exact for the
magnitudes appearing in the concrete inputs used below).  Everything is
built from `ℕ`/`ℤ` primitives so that concrete instances reduce inside the
kernel. -/

/-- Fuelled bit length of a natural number. -/
def natBitsF : ℕ → ℕ → ℕ
  | 0, _ => 0
  | f + 1, n => if n = 0 then 0 else natBitsF f (n / 2) + 1

/-- Bit length of a natural number (fuel 300 covers every quantity used
here). -/
def natBits (n : ℕ) : ℕ := natBitsF 300 n

/-- Reduce a positive integer `qt` (plus a sticky bit recording whether
discarded lower-order information was nonzero) to at most 53 significant
bits with round-to-nearest, ties-to-even.  Returns the rounded significand
and the number of bits dropped. -/
def roundMant (qt : ℕ) (sticky : Bool) : ℕ × ℕ :=
  let drop := natBits qt - 53
  let m0 := qt / 2 ^ drop
  let rem := qt % 2 ^ drop
  let up :=
    if 2 ^ drop < 2 * rem then true
    else if 2 * rem < 2 ^ drop then false
    else if sticky then true else m0 % 2 = 1
  (if up then m0 + 1 else m0, drop)

/-- Round the positive rational `a / d` to a 53-bit significand/exponent
pair (both arguments positive). -/
def roundQaux (a d : ℕ) : ℕ × ℤ :=
  let shift := 53 + natBits d
  let p := a * 2 ^ shift
  let qt := p / d
  let r := p % d
  let md := roundMant qt (if r = 0 then false else true)
  (md.1, (md.2 : ℤ) - (shift : ℤ))

/-- Round the rational `(n / d) · 2^e` (`d > 0`) to the nearest double. -/
def roundQint (n : ℤ) (d : ℕ) (e : ℤ) : ℤ × ℤ :=
  if n = 0 then (0, 0)
  else
    let md := roundQaux n.natAbs d
    (if n < 0 then -(md.1 : ℤ) else (md.1 : ℤ), md.2 + e)

/-- Double-precision addition. -/
def fdAdd (x y : ℤ × ℤ) : ℤ × ℤ :=
  let e := if x.2 ≤ y.2 then x.2 else y.2
  let mx := x.1 * ((2 ^ (x.2 - e).toNat : ℕ) : ℤ)
  let my := y.1 * ((2 ^ (y.2 - e).toNat : ℕ) : ℤ)
  roundQint (mx + my) 1 e

/-- Double-precision subtraction. -/
def fdSub (x y : ℤ × ℤ) : ℤ × ℤ := fdAdd x (-y.1, y.2)

/-- Double-precision multiplication. -/
def fdMul (x y : ℤ × ℤ) : ℤ × ℤ := roundQint (x.1 * y.1) 1 (x.2 + y.2)

/-- Double-precision division. -/
def fdDiv (x y : ℤ × ℤ) : ℤ × ℤ :=
  roundQint (if y.1 < 0 then -x.1 else x.1) y.1.natAbs (x.2 - y.2)

/-- Double-precision evaluation of the z coordinate the straddle branch of
`processSegment` computes for the crossing point: the z component of
`lerp3(source, target, t)` with `t = (zCutoff - sourceZ) / (targetZ -
sourceZ)`, i.e. `sourceZ + (targetZ - sourceZ) * t`, each operation rounded
as IEEE doubles. -/
def crossZfl (sourceZ targetZ zCutoff : ℤ × ℤ) : ℤ × ℤ :=
  let dz := fdSub targetZ sourceZ
  let t := fdDiv (fdSub zCutoff sourceZ) dz
  fdAdd sourceZ (fdMul dz t)

/-- Rational value of a significand/exponent pair. -/
def dyQ (x : ℤ × ℤ) : ℚ :=
  if 0 ≤ x.2 then mkRat (x.1 * ((2 ^ x.2.toNat : ℕ) : ℤ)) 1
  else mkRat x.1 (2 ^ (-x.2).toNat)

/-- Double-precision evaluation of one channel of `lerpHsl`:
`a + (b - a) * t`, each operation rounded as IEEE doubles. -/
def lerpChannelFl (a b t : ℤ × ℤ) : ℤ × ℤ := fdAdd a (fdMul (fdSub b a) t)

/-! ### Module-level color pool -/

/-- State of the module-level `colorPool` / `colorPoolIndex` pair: the pool's
physical length and the bump index.  (Buffer contents are irrelevant to the
aliasing claim: `hslToRgbBuff` overwrites all four slots.) -/
structure PoolState where
  len : ℕ
  idx : ℕ
deriving DecidableEq, Repr

/-- From `App.tsx`: `resetColorPool()` — sets `colorPoolIndex = 0`, keeping
the physical pool. -/
def resetColorPool (st : PoolState) : PoolState := ⟨st.len, 0⟩

/-- From `App.tsx`: `acquireColorBuffer()` — pushes one fresh buffer when the
bump index has reached the physical length, then returns slot
`colorPoolIndex` and post-increments.  Under the reset/acquire discipline
`idx ≤ len` always holds, so the returned slot exists in the pool. -/
def acquireColorBuffer (st : PoolState) : ℕ × PoolState :=
  if st.len ≤ st.idx
  then (st.idx, ⟨st.len + 1, st.idx + 1⟩)
  else (st.idx, ⟨st.len, st.idx + 1⟩)

/-- The pipeline performs exactly one `acquireColorBuffer()` per pushed
segment (inside `getGradientColor`), in push order: `writeSlots n st` is the
list of slots handed to the `n` segments of one invocation, with the final
pool state. -/
def writeSlots : ℕ → PoolState → List ℕ × PoolState
  | 0, st => ([], st)
  | n + 1, st =>
    let acq := acquireColorBuffer st
    let rest := writeSlots n acq.2
    (acq.1 :: rest.1, rest.2)

/-- One invocation of `meshToColoredSegments` against the pool: the initial
`resetColorPool()` followed by one acquisition per emitted segment. -/
def runInvocation (n : ℕ) (st : PoolState) : List ℕ × PoolState :=
  writeSlots n (resetColorPool st)

/-! ### JSON model for the gradient-state URL parser

`JSON.parse` / `JSON.stringify` are modelled at the level of JSON value
trees (for finite numbers, `JSON.parse(JSON.stringify(v))` recovers the
value tree of `v` exactly). -/

/-- JSON value trees.  Objects are field lists; property access takes the
first binding (parsed JSON has no duplicate keys). -/
inductive Json where
  | null : Json
  | bool (b : Bool) : Json
  | num (q : ℚ) : Json
  | str (s : String) : Json
  | arr (elems : List Json) : Json
  | obj (fields : List (String × Json)) : Json

/-- JS property access `v[key]` (with optional chaining): `undefined` —
modelled as `none` — unless `v` is an object with that key. -/
def jget (v : Json) (key : String) : Option Json :=
  match v with
  | Json.obj fields => fields.lookup key
  | _ => none

/-- Two-step property access `v[k1][k2]`. -/
def jget2 (v : Json) (k1 k2 : String) : Option Json :=
  match jget v k1 with
  | some w => jget w k2
  | none => none

/-- JS `Array.isArray(x) && x.length === 4` on a possibly-undefined value. -/
def isArr4 (v : Option Json) : Bool :=
  match v with
  | some (Json.arr elems) => elems.length = 4
  | _ => false

/-- JS `typeof val === 'number'`. -/
def isNum (v : Json) : Bool :=
  match v with
  | Json.num _ => true
  | _ => false

/-- The element list of a possibly-undefined JSON array (`[]` otherwise;
only consulted after `isArr4` has succeeded). -/
def arrElems (v : Option Json) : List Json :=
  match v with
  | some (Json.arr elems) => elems
  | _ => []

/-- The body of one iteration of the validation loop of
`parseAsGradients.parse`: `parsed[key]?.low` and `parsed[key]?.high` must be
4-element arrays and every element of both must be a number. -/
def checkGradientKey (parsed : Json) (key : String) : Bool :=
  isArr4 (jget2 parsed key "low") && isArr4 (jget2 parsed key "high")
    && (arrElems (jget2 parsed key "low") ++ arrElems (jget2 parsed key "high")).all isNum

/-- The four gradient keys, in the order the validation loop visits them. -/
def gradientKeys : List String := ["xBelow", "xAbove", "yBelow", "yAbove"]

/-- Number held by a JSON value (`0` for non-numbers; only consulted on
values already checked to be numbers). -/
def numVal (v : Json) : ℚ :=
  match v with
  | Json.num q => q
  | _ => 0

/-- Read a validated 4-element color array into a color buffer. -/
def readColor (v : Option Json) : Buf4 :=
  match arrElems v with
  | [a, b, c, d] => ⟨numVal a, numVal b, numVal c, numVal d⟩
  | _ => ⟨0, 0, 0, 0⟩

/-- Read one gradient from a validated payload. -/
def readGradient (parsed : Json) (key : String) : Gradient :=
  ⟨readColor (jget2 parsed key "high"), readColor (jget2 parsed key "low")⟩

/-- From `App.tsx`: `parseAsGradients.parse` — validate all four keys, then
return the parsed payload as a `GradientState` (the source returns the raw
parsed object under a type assertion; the embedding extracts the typed
fields, which is what that value means as a `GradientState`). -/
def parseAsGradients (parsed : Json) : Option GradientState :=
  if gradientKeys.all (checkGradientKey parsed)
  then some ⟨readGradient parsed "xAbove", readGradient parsed "xBelow",
             readGradient parsed "yAbove", readGradient parsed "yBelow"⟩
  else none

/-- JSON tree of a color buffer. -/
def serializeColor (c : Buf4) : Json :=
  Json.arr [Json.num c.c0, Json.num c.c1, Json.num c.c2, Json.num c.c3]

/-- JSON tree of one gradient (a `Gradient` object serializes its `high` and
`low` fields). -/
def serializeGradient (g : Gradient) : Json :=
  Json.obj [("high", serializeColor g.high), ("low", serializeColor g.low)]

/-- From `App.tsx`: `parseAsGradients.serialize = JSON.stringify`, as a JSON
value tree of a well-typed `GradientState`. -/
def serializeGradients (gs : GradientState) : Json :=
  Json.obj [("xAbove", serializeGradient gs.xAbove),
            ("xBelow", serializeGradient gs.xBelow),
            ("yAbove", serializeGradient gs.yAbove),
            ("yBelow", serializeGradient gs.yBelow)]

/-- Modelled from the claim wording, for comparison with the source
implementation: standard HSL→RGB — saturation-zero gray branch with
`R = G = B = round(l·255)`; otherwise intermediates `p`, `q` from `l`, `s`
and the hue-sector function at normalized-hue offsets +1/3, 0, −1/3 for
R, G, B; alpha passed through unchanged. -/
def hslToRgbSpec (c : Buf4) : Buf4 :=
  if c.c1 = 0 then
    ⟨(jsRound (c.c2 * 255) : ℚ), (jsRound (c.c2 * 255) : ℚ),
     (jsRound (c.c2 * 255) : ℚ), c.c3⟩
  else
    let q := if c.c2 < 1/2 then c.c2 * (1 + c.c1)
             else c.c2 + c.c1 - c.c2 * c.c1
    let p := 2 * c.c2 - q
    ⟨(jsRound (computeRGBComponent p q (c.c0 / 360 + 1/3) * 255) : ℚ),
     (jsRound (computeRGBComponent p q (c.c0 / 360) * 255) : ℚ),
     (jsRound (computeRGBComponent p q (c.c0 / 360 - 1/3) * 255) : ℚ),
     c.c3⟩

/-- The segment list produced by one pipeline invocation on a grid with at
least one row (`Z = z0 :: zrest`), as `meshToColoredSegments` computes it. -/
def pipelineSegments (X Y : List (List ℚ)) (z0 : List ℚ)
    (zrest : List (List ℚ)) (zCutoff zMin zMax : ℚ) (g : GradientState) :
    List ColoredSegment :=
  fillSegmentsCore X Y (z0 :: zrest) zCutoff zMin (zMax - zMin) g
    (z0 :: zrest).length z0.length

/-- Statement of the segment-count claim for a grid with first Z row `z0`:
the produced count is `(totalEdges + straddlingEdges) · GRADIENT_SUBDIVISIONS`,
bounded by `totalEdges · 2 · GRADIENT_SUBDIVISIONS` with equality exactly when
every edge straddles, and the pipeline is one pass over the duplicate-free
list of all row-direction and column-direction edges. -/
def segmentCountClaim (X Y : List (List ℚ)) (z0 : List ℚ)
    (zrest : List (List ℚ)) (zCutoff zMin zMax : ℚ) (g : GradientState)
    (rows cols : ℕ) : Prop :=
  GRADIENT_SUBDIVISIONS = 8 ∧
  meshToColoredSegments X Y (z0 :: zrest) zCutoff zMin zMax g
      = some (pipelineSegments X Y z0 zrest zCutoff zMin zMax g) ∧
  (pipelineSegments X Y z0 zrest zCutoff zMin zMax g).length
      = totalEdges rows cols * GRADIENT_SUBDIVISIONS
        + straddlingEdges X Y (z0 :: zrest) zCutoff rows cols
          * GRADIENT_SUBDIVISIONS ∧
  (pipelineSegments X Y z0 zrest zCutoff zMin zMax g).length
      ≤ totalEdges rows cols * (2 * GRADIENT_SUBDIVISIONS) ∧
  ((pipelineSegments X Y z0 zrest zCutoff zMin zMax g).length
      = totalEdges rows cols * (2 * GRADIENT_SUBDIVISIONS) ↔
    ∀ e ∈ edgeList rows cols,
      edgeStraddles X Y (z0 :: zrest) zCutoff e = true) ∧
  pipelineSegments X Y z0 zrest zCutoff zMin zMax g
      = (edgeList rows cols).flatMap (fun e =>
          processSegment zCutoff zMin (zMax - zMin) g
            (edgeEndpoints X Y (z0 :: zrest) e).1
            (edgeEndpoints X Y (z0 :: zrest) e).2 e.1) ∧
  (edgeList rows cols).Nodup ∧
  (edgeList rows cols).length = totalEdges rows cols ∧
  (∀ j i : ℕ, (Dir.x, j, i) ∈ edgeList rows cols ↔ j < rows ∧ i < cols - 1) ∧
  (∀ j i : ℕ, (Dir.y, j, i) ∈ edgeList rows cols ↔ j < rows - 1 ∧ i < cols)

/-! ## Theorems -/

/-- Each uniform subdivision emits exactly `GRADIENT_SUBDIVISIONS` segments. -/
theorem subdivideSegment_length (zMin zRange : ℚ) (s t : Point)
    (gr : Gradient) :
    (subdivideSegment zMin zRange s t gr).length = GRADIENT_SUBDIVISIONS := by
  unfold subdivideSegment
  rw [List.length_map, List.length_range]

/-- Each call to `processSegment` emits `GRADIENT_SUBDIVISIONS` segments for
a one-sided edge and twice that for a straddling edge. -/
theorem processSegment_length (zCutoff zMin zRange : ℚ) (g : GradientState)
    (s t : Point) (d : Dir) :
    (processSegment zCutoff zMin zRange g s t d).length
      = if decide (s.2.2 > zCutoff) != decide (t.2.2 > zCutoff)
        then 2 * GRADIENT_SUBDIVISIONS else GRADIENT_SUBDIVISIONS := by
  by_cases h : decide (s.2.2 > zCutoff) = decide (t.2.2 > zCutoff)
  · simp [processSegment, h, subdivideSegment_length]
  · simp [processSegment, h, subdivideSegment_length, bne_iff_ne,
      GRADIENT_SUBDIVISIONS]

/-- Summing per-edge output sizes: total is `GRADIENT_SUBDIVISIONS` per edge
plus `GRADIENT_SUBDIVISIONS` per straddling edge. -/
theorem sum_map_ite_length {α : Type} (p : α → Bool) (l : List α) :
    (l.map fun e => if p e then 2 * GRADIENT_SUBDIVISIONS
      else GRADIENT_SUBDIVISIONS).sum
      = GRADIENT_SUBDIVISIONS * l.length + GRADIENT_SUBDIVISIONS * l.countP p
    := by
  induction l with
  | nil => simp
  | cons a l ih =>
    simp only [List.map_cons, List.sum_cons, List.countP_cons, ih,
      List.length_cons]
    by_cases h : p a <;> simp [h, GRADIENT_SUBDIVISIONS] <;> ring

/-- The nested loops of `fillSegmentsCore` are exactly one pass over
`edgeList`. -/
theorem fillSegmentsCore_eq_flatMap (X Y Z : List (List ℚ))
    (zCutoff zMin zRange : ℚ) (g : GradientState) (rows cols : ℕ) :
    fillSegmentsCore X Y Z zCutoff zMin zRange g rows cols
      = (edgeList rows cols).flatMap (fun e =>
          processSegment zCutoff zMin zRange g
            (edgeEndpoints X Y Z e).1 (edgeEndpoints X Y Z e).2 e.1) := by
  unfold fillSegmentsCore edgeList
  rw [List.flatMap_append]
  congr 1 <;> rw [List.flatMap_assoc] <;>
    simp only [List.flatMap_map, edgeEndpoints]

/-- The edge list never repeats an edge. -/
theorem edgeList_nodup (rows cols : ℕ) : (edgeList rows cols).Nodup := by
  have hx : ((List.range rows).flatMap fun j =>
      (List.range (cols - 1)).map fun i => ((Dir.x, j, i) : EdgeId))
      = ((List.range rows ×ˢ List.range (cols - 1)).map
          fun p => (Dir.x, p.1, p.2)) := by
    rw [show (List.range rows ×ˢ List.range (cols - 1))
        = (List.range rows).flatMap
            (fun a => (List.range (cols - 1)).map (Prod.mk a)) from rfl,
      List.map_flatMap]
    simp only [List.map_map]
    rfl
  have hy : ((List.range (rows - 1)).flatMap fun j =>
      (List.range cols).map fun i => ((Dir.y, j, i) : EdgeId))
      = ((List.range (rows - 1) ×ˢ List.range cols).map
          fun p => (Dir.y, p.1, p.2)) := by
    rw [show (List.range (rows - 1) ×ˢ List.range cols)
        = (List.range (rows - 1)).flatMap
            (fun a => (List.range cols).map (Prod.mk a)) from rfl,
      List.map_flatMap]
    simp only [List.map_map]
    rfl
  unfold edgeList
  rw [hx, hy]
  refine List.Nodup.append ?_ ?_ ?_
  · exact ((List.nodup_range rows).product
      (List.nodup_range (cols - 1))).map (by
        intro p q hpq
        simpa [Prod.ext_iff] using hpq)
  · exact ((List.nodup_range (rows - 1)).product
      (List.nodup_range cols)).map (by
        intro p q hpq
        simpa [Prod.ext_iff] using hpq)
  · intro e he1 he2
    simp only [List.mem_map] at he1 he2
    obtain ⟨p, -, hp⟩ := he1
    obtain ⟨q, -, hq⟩ := he2
    rw [← hp] at hq
    simpa using congrArg Prod.fst hq

/-- The edge list has exactly `totalEdges` entries. -/
theorem edgeList_length (rows cols : ℕ) :
    (edgeList rows cols).length = totalEdges rows cols := by
  have hc : ∀ (n c : ℕ), ((List.range n).map fun _ => c).sum = n * c := by
    intro n c
    induction n with
    | zero => simp
    | succ m ih => rw [List.range_succ]; simp [ih]; ring
  unfold edgeList totalEdges
  rw [List.length_append, List.length_flatMap, List.length_flatMap]
  simp only [Function.comp_def, List.length_map, List.length_range]
  rw [hc, hc]

/-- Membership in the edge list: X-direction edges. -/
theorem mem_edgeList_x (rows cols j i : ℕ) :
    ((Dir.x, j, i) : EdgeId) ∈ edgeList rows cols
      ↔ j < rows ∧ i < cols - 1 := by
  simp [edgeList, List.mem_flatMap, eq_comm]

/-- Membership in the edge list: Y-direction edges. -/
theorem mem_edgeList_y (rows cols j i : ℕ) :
    ((Dir.y, j, i) : EdgeId) ∈ edgeList rows cols
      ↔ j < rows - 1 ∧ i < cols := by
  simp [edgeList, List.mem_flatMap, eq_comm]

set_option maxRecDepth 40000 in
/-- C1 (counterexample): in IEEE-754 double arithmetic the pipeline does not
set the crossing point's Z bit-for-bit to the cutoff.  For the straddling
edge with `sourceZ = 0`, `targetZ = 49`, `cutoff = 1` (all exactly
representable), `processSegment` computes
`z = sourceZ + (targetZ - sourceZ) * ((cutoff - sourceZ) / (targetZ -
sourceZ))`, which rounds to `0.9999999999999999 ≠ 1`; the Z is recomputed by
interpolation (`midPoint = lerp3(source, target, t)`), not assigned the
cutoff. -/
theorem claim_C1_counterexample :
    ¬ ((0 : ℚ) > 1) ∧ ((49 : ℚ) > 1) ∧
    dyQ (0, 0) = 0 ∧ dyQ (49, 0) = 49 ∧ dyQ (1, 0) = 1 ∧
    dyQ (crossZfl (0, 0) (49, 0) (1, 0)) ≠ 1 ∧
    dyQ (crossZfl (0, 0) (49, 0) (1, 0))
      = mkRat 9007199254740991 9007199254740992 := by decide

/-- C1 (amended): for a straddling edge the pipeline computes the crossing
fraction `f = (cutoff - sourceZ) / (targetZ - sourceZ)` and obtains all
three coordinates of the crossing point by linear interpolation at `f` —
the Z coordinate is not assigned the cutoff value; under exact arithmetic
the interpolated Z equals the cutoff (though not bit-for-bit in floating
point, see the counterexample).  Only the separate hover-vertex computation
writes Z as the literal cutoff. -/
theorem claim_C1 (zCutoff zMin zRange : ℚ) (g : GradientState) (s t : Point)
    (d : Dir)
    (hstraddle : decide (s.2.2 > zCutoff) ≠ decide (t.2.2 > zCutoff)) :
    processSegment zCutoff zMin zRange g s t d
      = subdivideSegment zMin zRange s (crossingPoint s t zCutoff)
          (if s.2.2 > zCutoff then gradientAboveFor d g
           else gradientBelowFor d g)
        ++ subdivideSegment zMin zRange (crossingPoint s t zCutoff) t
          (if t.2.2 > zCutoff then gradientAboveFor d g
           else gradientBelowFor d g) ∧
    crossingPoint s t zCutoff = lerp3 s t (crossFraction s t zCutoff) ∧
    (crossingPoint s t zCutoff).1
      = s.1 + (t.1 - s.1) * crossFraction s t zCutoff ∧
    (crossingPoint s t zCutoff).2.1
      = s.2.1 + (t.2.1 - s.2.1) * crossFraction s t zCutoff ∧
    (crossingPoint s t zCutoff).2.2 = zCutoff ∧
    (hoverCrossingVertex s t zCutoff).2.2 = zCutoff := by
  have hne : t.2.2 - s.2.2 ≠ 0 := by
    intro h0
    exact hstraddle (by rw [sub_eq_zero.mp h0])
  refine ⟨?_, rfl, rfl, rfl, ?_, rfl⟩
  · simp [processSegment, hstraddle]
  · show s.2.2 + (t.2.2 - s.2.2) * ((zCutoff - s.2.2) / (t.2.2 - s.2.2))
      = zCutoff
    rw [mul_comm, div_mul_cancel₀ _ hne]
    ring

/-- Witness for C1 at a concrete straddling edge (z from 0 to 49 across
cutoff 1): the exact-arithmetic crossing Z equals the cutoff. -/
theorem claim_C1_witness :
    decide ((0 : ℚ) > 1) ≠ decide ((49 : ℚ) > 1) ∧
    (crossingPoint ((0 : ℚ), (0 : ℚ), (0 : ℚ)) (1, 0, 49) 1).2.2 = 1 :=
  ⟨by decide,
   (claim_C1 1 0 2 sampleGradients (0, 0, 0) (1, 0, 49) Dir.x
     (by decide)).2.2.2.2.1⟩

/-- C2: on a grid with at least one row and one column, the pipeline
produces `(totalEdges + straddlingEdges) · GRADIENT_SUBDIVISIONS` segments,
which never exceeds `totalEdges · 2 · GRADIENT_SUBDIVISIONS`, with equality
exactly when every edge straddles the cutoff; the walk is one pass over the
duplicate-free list of all row-direction and column-direction edges. -/
theorem claim_C2 (X Y : List (List ℚ)) (z0 : List ℚ) (zrest : List (List ℚ))
    (zCutoff zMin zMax : ℚ) (g : GradientState) (_hc : 1 ≤ z0.length) :
    segmentCountClaim X Y z0 zrest zCutoff zMin zMax g
      (z0 :: zrest).length z0.length := by
  have hflat := fillSegmentsCore_eq_flatMap X Y (z0 :: zrest) zCutoff zMin
    (zMax - zMin) g (z0 :: zrest).length z0.length
  have hstr : straddlingEdges X Y (z0 :: zrest) zCutoff
      (z0 :: zrest).length z0.length
      ≤ totalEdges (z0 :: zrest).length z0.length := by
    unfold straddlingEdges
    rw [← edgeList_length]
    exact List.countP_le_length _
  have hlen : (pipelineSegments X Y z0 zrest zCutoff zMin zMax g).length
      = GRADIENT_SUBDIVISIONS * totalEdges (z0 :: zrest).length z0.length
        + GRADIENT_SUBDIVISIONS * straddlingEdges X Y (z0 :: zrest) zCutoff
            (z0 :: zrest).length z0.length := by
    unfold pipelineSegments
    rw [hflat, List.length_flatMap]
    have hmap : List.map (List.length ∘ fun e =>
        processSegment zCutoff zMin (zMax - zMin) g
          (edgeEndpoints X Y (z0 :: zrest) e).1
          (edgeEndpoints X Y (z0 :: zrest) e).2 e.1)
        (edgeList (z0 :: zrest).length z0.length)
        = List.map (fun e =>
            if edgeStraddles X Y (z0 :: zrest) zCutoff e
            then 2 * GRADIENT_SUBDIVISIONS else GRADIENT_SUBDIVISIONS)
          (edgeList (z0 :: zrest).length z0.length) := by
      apply List.map_congr_left
      intro e he
      simp only [Function.comp_apply]
      rw [processSegment_length]
      rfl
    rw [hmap, sum_map_ite_length, edgeList_length]
    rfl
  refine ⟨rfl, rfl, ?_, ?_, ?_, hflat, edgeList_nodup _ _,
    edgeList_length _ _,
    fun j i => mem_edgeList_x _ _ j i, fun j i => mem_edgeList_y _ _ j i⟩
  · rw [hlen]; ring
  · rw [hlen]
    simp only [GRADIENT_SUBDIVISIONS] at hstr ⊢
    omega
  · rw [hlen]
    constructor
    · intro heq
      refine List.countP_eq_length.mp ?_
      rw [edgeList_length]
      unfold straddlingEdges at heq hstr
      simp only [GRADIENT_SUBDIVISIONS] at heq
      omega
    · intro hall
      have hcount := List.countP_eq_length.mpr hall
      unfold straddlingEdges
      rw [hcount, edgeList_length]
      ring

/-- Witness for C2 on a concrete 2×1 grid with a straddling edge: one edge,
sixteen segments. -/
theorem claim_C2_witness :
    1 ≤ ([(0 : ℚ)]).length ∧
    segmentCountClaim [[0], [0]] [[0], [1]] [(0 : ℚ)] [[2]] 1 0 2
      sampleGradients ([(0 : ℚ)] :: [[2]]).length ([(0 : ℚ)]).length :=
  ⟨by decide,
   claim_C2 [[0], [0]] [[0], [1]] [(0 : ℚ)] [[2]] 1 0 2 sampleGradients
     (by decide)⟩

/-- C3 (counterexample): a zero-row grid does not produce an empty result —
`meshToColoredSegments` reads `Z[0].length` with `Z[0] === undefined` and
throws a `TypeError`, modelled by `none` (not `some []`). -/
theorem claim_C3_counterexample :
    meshToColoredSegments [] [] [] 0 0 1 sampleGradients = none := rfl

/-- C3 (amended): a grid whose first row has zero columns (with at least one
row present) yields zero segments and is not an error; a zero-row grid
instead throws a `TypeError` when `Z[0].length` is read (see the
counterexample). -/
theorem claim_C3 (X Y : List (List ℚ)) (zrest : List (List ℚ))
    (zCutoff zMin zMax : ℚ) (g : GradientState) :
    meshToColoredSegments X Y ([] :: zrest) zCutoff zMin zMax g = some [] := by
  simp only [meshToColoredSegments, fillSegmentsCore, List.length_nil]
  simp [List.flatMap_eq_nil_iff]

set_option maxRecDepth 40000 in
/-- C4 (counterexample): in the program's IEEE-754 double arithmetic the
`t = 1` evaluation is not exact.  For the saturation endpoints 0.03 (low)
and 0.29 (high) — both reachable with the app's step-1 percentage sliders;
their closest doubles are `8646911284551352·2^-58` and
`5224175567749775·2^-54` — the channel computation `a + (b - a) * 1`
rounds to `5224175567749776·2^-54 = 0.29000000000000004`, one ulp above
the high endpoint, refuting "exact equality, not approximate" at `t = 1`.
At `t = 0` the same inputs do reproduce the low endpoint exactly. -/
theorem claim_C4_counterexample :
    fdDiv (3, 0) (100, 0) = (8646911284551352, -58) ∧
    fdDiv (29, 0) (100, 0) = (5224175567749775, -54) ∧
    lerpChannelFl (8646911284551352, -58) (5224175567749775, -54) (1, 0)
      = (5224175567749776, -54) ∧
    dyQ (lerpChannelFl (8646911284551352, -58) (5224175567749775, -54)
        (1, 0))
      ≠ dyQ (5224175567749775, -54) ∧
    dyQ (lerpChannelFl (8646911284551352, -58) (5224175567749775, -54)
        (0, 0))
      = dyQ (8646911284551352, -58) := by decide

/-- C4 (amended): under exact arithmetic on the channel values, evaluating
the gradient interpolation at `t = 0` yields the low endpoint exactly
(alpha included), and at `t = 1` the high endpoint's h, s, l exactly, with
alpha still carried from the low endpoint.  In the program's IEEE-754
doubles the `t = 0` case and the alpha carry are still exact, but the
`t = 1` result can differ from the high endpoint by one ulp (see the
counterexample). -/
theorem claim_C4 (gr : Gradient) :
    lerpHsl gr.low gr.high 0 = gr.low ∧
    (lerpHsl gr.low gr.high 1).c0 = gr.high.c0 ∧
    (lerpHsl gr.low gr.high 1).c1 = gr.high.c1 ∧
    (lerpHsl gr.low gr.high 1).c2 = gr.high.c2 ∧
    (lerpHsl gr.low gr.high 1).c3 = gr.low.c3 := by
  obtain ⟨⟨h0, h1, h2, h3⟩, ⟨l0, l1, l2, l3⟩⟩ := gr
  refine ⟨by simp [lerpHsl], ?_, ?_, ?_, rfl⟩ <;>
    (simp only [lerpHsl]; ring)

/-- C6: an edge entirely on one side of the cutoff produces exactly
`GRADIENT_SUBDIVISIONS` sub-segments whose endpoints interpolate the edge at
`i/GRADIENT_SUBDIVISIONS` and `(i+1)/GRADIENT_SUBDIVISIONS`; a straddling
edge's two halves together produce `2 · GRADIENT_SUBDIVISIONS`. -/
theorem claim_C6 (zCutoff zMin zRange : ℚ) (g : GradientState) (s t : Point)
    (d : Dir) :
    (decide (s.2.2 > zCutoff) = decide (t.2.2 > zCutoff) →
      (processSegment zCutoff zMin zRange g s t d).length
          = GRADIENT_SUBDIVISIONS ∧
      (processSegment zCutoff zMin zRange g s t d).map
          (fun seg => (seg.sourcePosition, seg.targetPosition))
        = (List.range GRADIENT_SUBDIVISIONS).map (fun (i : ℕ) =>
            (lerp3 s t ((i : ℚ) / (GRADIENT_SUBDIVISIONS : ℚ)),
             lerp3 s t (((i : ℚ) + 1) / (GRADIENT_SUBDIVISIONS : ℚ))))) ∧
    (decide (s.2.2 > zCutoff) ≠ decide (t.2.2 > zCutoff) →
      (processSegment zCutoff zMin zRange g s t d).length
          = 2 * GRADIENT_SUBDIVISIONS) := by
  constructor
  · intro h
    constructor
    · simp [processSegment, h, subdivideSegment_length]
    · simp [processSegment, h, subdivideSegment, addSubSegment, List.map_map]
  · intro h
    simp [processSegment, h, subdivideSegment_length, GRADIENT_SUBDIVISIONS]

/-- Witness for C6 at concrete inputs: a uniform edge (both endpoints below
the cutoff 2) and a straddling edge (z from 0 to 2 across cutoff 1). -/
theorem claim_C6_witness :
    (decide ((1 : ℚ) > 2) = decide ((0 : ℚ) > 2) ∧
      (processSegment 2 0 2 sampleGradients (0, 0, 1) (1, 0, 0) Dir.x).length
        = GRADIENT_SUBDIVISIONS) ∧
    (decide ((0 : ℚ) > 1) ≠ decide ((2 : ℚ) > 1) ∧
      (processSegment 1 0 2 sampleGradients (0, 0, 0) (1, 0, 2) Dir.y).length
        = 2 * GRADIENT_SUBDIVISIONS) :=
  ⟨⟨by decide,
    ((claim_C6 2 0 2 sampleGradients (0, 0, 1) (1, 0, 0) Dir.x).1
      (by decide)).1⟩,
   ⟨by decide,
    (claim_C6 1 0 2 sampleGradients (0, 0, 0) (1, 0, 2) Dir.y).2 (by decide)⟩⟩

/-- C7: the above classification is the strict `z > cutoff`, so a tie
(`z = cutoff`) is below; when both endpoints classify to the same side the
edge is not split — it is one uniform subdivision colored with that side's
direction-appropriate gradient. -/
theorem claim_C7 (zCutoff zMin zRange : ℚ) (g : GradientState) (s t : Point)
    (d : Dir) :
    (s.2.2 ≤ zCutoff → t.2.2 ≤ zCutoff →
      processSegment zCutoff zMin zRange g s t d
        = subdivideSegment zMin zRange s t (gradientBelowFor d g)) ∧
    (zCutoff < s.2.2 → zCutoff < t.2.2 →
      processSegment zCutoff zMin zRange g s t d
        = subdivideSegment zMin zRange s t (gradientAboveFor d g)) := by
  constructor
  · intro h1 h2
    have hs : decide (s.2.2 > zCutoff) = false :=
      decide_eq_false_iff_not.mpr (not_lt.mpr h1)
    have ht : decide (t.2.2 > zCutoff) = false :=
      decide_eq_false_iff_not.mpr (not_lt.mpr h2)
    simp [processSegment, hs, ht]
  · intro h1 h2
    have hs : decide (s.2.2 > zCutoff) = true := decide_eq_true h1
    have ht : decide (t.2.2 > zCutoff) = true := decide_eq_true h2
    simp [processSegment, hs, ht]

/-- Witness for C7 at a concrete input exercising the tie: the source
endpoint sits exactly on the cutoff (`z = 1 = cutoff`) and is classified
below, so the whole edge gets the below-side X gradient. -/
theorem claim_C7_witness :
    ((1 : ℚ) ≤ 1 ∧ (0 : ℚ) ≤ 1) ∧
    processSegment 1 0 2 sampleGradients (0, 0, 1) (1, 0, 0) Dir.x
      = subdivideSegment 0 2 (0, 0, 1) (1, 0, 0)
          (gradientBelowFor Dir.x sampleGradients) :=
  ⟨⟨by norm_num, by norm_num⟩,
   (claim_C7 1 0 2 sampleGradients (0, 0, 1) (1, 0, 0) Dir.x).1
     (by norm_num) (by norm_num)⟩

/-- The hue-wrap step of `computeRGBComponent` maps `[-1/3, 4/3]` into
`[0, 1]`. -/
theorem wrap_mem (t0 : ℚ) (hlo : -(1/3) ≤ t0) (hhi : t0 ≤ 4/3) :
    0 ≤ (if t0 < 0 then t0 + 1 else if t0 > 1 then t0 - 1 else t0) ∧
    (if t0 < 0 then t0 + 1 else if t0 > 1 then t0 - 1 else t0) ≤ 1 := by
  split_ifs <;> constructor <;> linarith

/-- The hue-sector piecewise function stays in `[0, 1]` when
`0 ≤ p ≤ q ≤ 1` and the wrapped hue is in `[0, 1]`. -/
theorem hueSector_bounds (p q t : ℚ) (hp : 0 ≤ p) (hpq : p ≤ q) (hq : q ≤ 1)
    (ht0 : 0 ≤ t) (_ht1 : t ≤ 1) :
    0 ≤ (if t < 1/6 then p + (q - p) * 6 * t
         else if t < 1/2 then q
         else if t < 2/3 then p + (q - p) * (2/3 - t) * 6
         else p) ∧
    (if t < 1/6 then p + (q - p) * 6 * t
     else if t < 1/2 then q
     else if t < 2/3 then p + (q - p) * (2/3 - t) * 6
     else p) ≤ 1 := by
  refine ⟨?_, ?_⟩ <;> split_ifs with h1 h2 h3
  · nlinarith [mul_nonneg (sub_nonneg.mpr hpq) ht0]
  · linarith
  · nlinarith [mul_nonneg (sub_nonneg.mpr hpq)
      (by linarith : (0 : ℚ) ≤ 2/3 - t)]
  · linarith
  · nlinarith [mul_nonneg (sub_nonneg.mpr hpq)
      (by linarith : (0 : ℚ) ≤ 1 - 6 * t)]
  · linarith
  · nlinarith [mul_nonneg (sub_nonneg.mpr hpq)
      (by linarith : (0 : ℚ) ≤ 1 - (2/3 - t) * 6)]
  · linarith

/-- `computeRGBComponent` stays in `[0, 1]` for `0 ≤ p ≤ q ≤ 1` and a hue
offset in `[-1/3, 4/3]`. -/
theorem computeRGBComponent_bounds (p q t0 : ℚ) (hp : 0 ≤ p) (hpq : p ≤ q)
    (hq : q ≤ 1) (hlo : -(1/3) ≤ t0) (hhi : t0 ≤ 4/3) :
    0 ≤ computeRGBComponent p q t0 ∧ computeRGBComponent p q t0 ≤ 1 := by
  have hw := wrap_mem t0 hlo hhi
  have hs := hueSector_bounds p q
    (if t0 < 0 then t0 + 1 else if t0 > 1 then t0 - 1 else t0)
    hp hpq hq hw.1 hw.2
  simpa only [computeRGBComponent] using hs

/-- The intermediates of the saturated branch satisfy `0 ≤ p ≤ q ≤ 1`. -/
theorem pq_bounds (s l q : ℚ)
    (hqdef : q = if l < 1/2 then l * (1 + s) else l + s - l * s)
    (hs0 : 0 < s) (hs1 : s ≤ 1) (hl0 : 0 ≤ l) (hl1 : l ≤ 1) :
    0 ≤ 2 * l - q ∧ 2 * l - q ≤ q ∧ q ≤ 1 := by
  subst hqdef
  split_ifs with h
  · refine ⟨?_, ?_, ?_⟩
    · nlinarith [mul_nonneg hl0 (sub_nonneg.mpr hs1)]
    · nlinarith [mul_nonneg hl0 hs0.le]
    · nlinarith [mul_nonneg (by linarith : (0 : ℚ) ≤ 1/2 - l)
        (by linarith : (0 : ℚ) ≤ 1 + s)]
  · refine ⟨?_, ?_, ?_⟩
    · nlinarith [mul_nonneg (sub_nonneg.mpr hs1) (sub_nonneg.mpr hl1)]
    · nlinarith [mul_nonneg hs0.le (sub_nonneg.mpr hl1)]
    · nlinarith [mul_nonneg (sub_nonneg.mpr hs1) (sub_nonneg.mpr hl1)]

/-- `Math.round(x·255)` is an integer in `0..255` for `x ∈ [0, 1]`. -/
theorem jsRound_byte (x : ℚ) (h0 : 0 ≤ x) (h1 : x ≤ 1) :
    0 ≤ jsRound (x * 255) ∧ jsRound (x * 255) ≤ 255 := by
  unfold jsRound
  constructor
  · exact Int.floor_nonneg.mpr (by linarith)
  · have hlt : (x * 255 + 1/2 : ℚ) < 256 := by linarith
    have := Int.floor_lt.mpr (by exact_mod_cast hlt :
      (x * 255 + 1/2 : ℚ) < ((256 : ℤ) : ℚ))
    omega

/-- Value of `hslToRgbBuff` in the gray (saturation-zero) branch. -/
theorem hslToRgbBuff_of_gray (c buf : Buf4) (hsz : c.c1 = 0) :
    hslToRgbBuff c buf
      = ⟨(jsRound (c.c2 * 255) : ℚ), (jsRound (c.c2 * 255) : ℚ),
         (jsRound (c.c2 * 255) : ℚ), c.c3⟩ := by
  simp [hslToRgbBuff, hsz]

/-- Value of `hslToRgbBuff` in the saturated branch. -/
theorem hslToRgbBuff_of_sat (c buf : Buf4) (hsz : ¬ c.c1 = 0) :
    hslToRgbBuff c buf
      = ⟨(jsRound (computeRGBComponent
            (2 * c.c2 - (if c.c2 < 1/2 then c.c2 * (1 + c.c1)
              else c.c2 + c.c1 - c.c2 * c.c1))
            (if c.c2 < 1/2 then c.c2 * (1 + c.c1)
              else c.c2 + c.c1 - c.c2 * c.c1)
            (c.c0 / 360 + 1/3) * 255) : ℚ),
         (jsRound (computeRGBComponent
            (2 * c.c2 - (if c.c2 < 1/2 then c.c2 * (1 + c.c1)
              else c.c2 + c.c1 - c.c2 * c.c1))
            (if c.c2 < 1/2 then c.c2 * (1 + c.c1)
              else c.c2 + c.c1 - c.c2 * c.c1)
            (c.c0 / 360) * 255) : ℚ),
         (jsRound (computeRGBComponent
            (2 * c.c2 - (if c.c2 < 1/2 then c.c2 * (1 + c.c1)
              else c.c2 + c.c1 - c.c2 * c.c1))
            (if c.c2 < 1/2 then c.c2 * (1 + c.c1)
              else c.c2 + c.c1 - c.c2 * c.c1)
            (c.c0 / 360 - 1/3) * 255) : ℚ),
         c.c3⟩ := by
  simp [hslToRgbBuff, hsz]

/-- C9 (counterexample): with a valid but fractional alpha (`h = 0`,
`s = 0`, `l = 0`, `alpha = 1/2 ∈ [0, 255]`), the fourth slot written by
`hslToRgbBuff` is `1/2`, which is not an integer — the claim that all four
written values are integers fails (alpha is passed through unchanged). -/
theorem claim_C9_counterexample :
    ¬ (∃ k : ℤ, (hslToRgbBuff ⟨0, 0, 0, 1/2⟩ freshRgbBuff).c3 = (k : ℚ)
        ∧ 0 ≤ k ∧ k ≤ 255) := by
  have hval : (hslToRgbBuff ⟨0, 0, 0, 1/2⟩ freshRgbBuff).c3 = 1/2 := rfl
  rintro ⟨k, hk, -, -⟩
  rw [hval] at hk
  rcases lt_or_le k 1 with h | h
  · have hle : (k : ℚ) ≤ 0 := by exact_mod_cast Int.lt_add_one_iff.mp h
    rw [← hk] at hle
    norm_num at hle
  · have hge : (1 : ℚ) ≤ (k : ℚ) := by exact_mod_cast h
    rw [← hk] at hge
    norm_num at hge

/-- C9 (amended): for `h ∈ [0, 360)`, `s, l ∈ [0, 1]`, `alpha ∈ [0, 255]`,
the three RGB slots written by `hslToRgbBuff` are integers in `0..255`
(the intermediates satisfy `0 ≤ p ≤ q ≤ 1` and the hue-sector value stays
in `[0, 1]` before rounding); the alpha slot equals the input alpha — it
lies in `[0, 255]` but is an integer only when the input alpha is. -/
theorem claim_C9 (c buf : Buf4) (hh0 : 0 ≤ c.c0) (hh1 : c.c0 < 360)
    (hs0 : 0 ≤ c.c1) (hs1 : c.c1 ≤ 1) (hl0 : 0 ≤ c.c2) (hl1 : c.c2 ≤ 1)
    (ha0 : 0 ≤ c.c3) (ha1 : c.c3 ≤ 255) :
    (∃ k : ℤ, (hslToRgbBuff c buf).c0 = (k : ℚ) ∧ 0 ≤ k ∧ k ≤ 255) ∧
    (∃ k : ℤ, (hslToRgbBuff c buf).c1 = (k : ℚ) ∧ 0 ≤ k ∧ k ≤ 255) ∧
    (∃ k : ℤ, (hslToRgbBuff c buf).c2 = (k : ℚ) ∧ 0 ≤ k ∧ k ≤ 255) ∧
    ((hslToRgbBuff c buf).c3 = c.c3 ∧ 0 ≤ (hslToRgbBuff c buf).c3
      ∧ (hslToRgbBuff c buf).c3 ≤ 255) := by
  by_cases hsz : c.c1 = 0
  · rw [hslToRgbBuff_of_gray c buf hsz]
    obtain ⟨hr0, hr1⟩ := jsRound_byte c.c2 hl0 hl1
    exact ⟨⟨jsRound (c.c2 * 255), rfl, hr0, hr1⟩,
           ⟨jsRound (c.c2 * 255), rfl, hr0, hr1⟩,
           ⟨jsRound (c.c2 * 255), rfl, hr0, hr1⟩, rfl, ha0, ha1⟩
  · rw [hslToRgbBuff_of_sat c buf hsz]
    have hs0p : 0 < c.c1 := hs0.lt_of_ne (Ne.symm hsz)
    obtain ⟨hp, hpq, hq⟩ := pq_bounds c.c1 c.c2 _ rfl hs0p hs1 hl0 hl1
    have hhue0 : 0 ≤ c.c0 / 360 := div_nonneg hh0 (by norm_num)
    have hhue1 : c.c0 / 360 < 1 :=
      (div_lt_one (by norm_num : (0 : ℚ) < 360)).mpr hh1
    obtain ⟨ha, hb⟩ := computeRGBComponent_bounds _ _ (c.c0 / 360 + 1/3)
      hp hpq hq (by linarith) (by linarith)
    obtain ⟨hc2, hd⟩ := computeRGBComponent_bounds _ _ (c.c0 / 360)
      hp hpq hq (by linarith) (by linarith)
    obtain ⟨he, hf⟩ := computeRGBComponent_bounds _ _ (c.c0 / 360 - 1/3)
      hp hpq hq (by linarith) (by linarith)
    obtain ⟨h1a, h1b⟩ := jsRound_byte _ ha hb
    obtain ⟨h2a, h2b⟩ := jsRound_byte _ hc2 hd
    obtain ⟨h3a, h3b⟩ := jsRound_byte _ he hf
    exact ⟨⟨_, rfl, h1a, h1b⟩, ⟨_, rfl, h2a, h2b⟩, ⟨_, rfl, h3a, h3b⟩,
      rfl, ha0, ha1⟩

/-- Witness for C9 at the concrete color HSL(220, 0.7, 0.25, 255): the
written RGB values are integers in range and alpha is carried. -/
theorem claim_C9_witness :
    ((0 : ℚ) ≤ 220 ∧ (220 : ℚ) < 360 ∧ (0 : ℚ) ≤ 7/10 ∧ (7/10 : ℚ) ≤ 1
      ∧ (0 : ℚ) ≤ 1/4 ∧ (1/4 : ℚ) ≤ 1 ∧ (0 : ℚ) ≤ 255
      ∧ (255 : ℚ) ≤ 255) ∧
    ((∃ k : ℤ, (hslToRgbBuff ⟨220, 7/10, 1/4, 255⟩ freshRgbBuff).c0 = (k : ℚ)
        ∧ 0 ≤ k ∧ k ≤ 255) ∧
     (∃ k : ℤ, (hslToRgbBuff ⟨220, 7/10, 1/4, 255⟩ freshRgbBuff).c1 = (k : ℚ)
        ∧ 0 ≤ k ∧ k ≤ 255) ∧
     (∃ k : ℤ, (hslToRgbBuff ⟨220, 7/10, 1/4, 255⟩ freshRgbBuff).c2 = (k : ℚ)
        ∧ 0 ≤ k ∧ k ≤ 255) ∧
     ((hslToRgbBuff ⟨220, 7/10, 1/4, 255⟩ freshRgbBuff).c3
          = (⟨220, 7/10, 1/4, 255⟩ : Buf4).c3
       ∧ 0 ≤ (hslToRgbBuff ⟨220, 7/10, 1/4, 255⟩ freshRgbBuff).c3
       ∧ (hslToRgbBuff ⟨220, 7/10, 1/4, 255⟩ freshRgbBuff).c3 ≤ 255)) :=
  ⟨⟨by norm_num, by norm_num, by norm_num, by norm_num, by norm_num,
    by norm_num, by norm_num, by norm_num⟩,
   claim_C9 ⟨220, 7/10, 1/4, 255⟩ freshRgbBuff (by norm_num) (by norm_num)
     (by norm_num) (by norm_num) (by norm_num) (by norm_num) (by norm_num)
     (by norm_num)⟩

/-- C8: `hslToRgbBuff` computes the gray branch when saturation is zero and
otherwise the standard p/q hue-sector conversion at offsets +1/3, 0, −1/3,
passing alpha through (first conjunct, against the spec-worded model); and
its result does not depend on the destination buffer — every slot of the
caller-supplied buffer is overwritten, which is the value-level content of
returning the mutated input buffer itself (second conjunct). -/
theorem claim_C8 (c b1 b2 : Buf4) :
    hslToRgbBuff c b1 = hslToRgbSpec c ∧
    hslToRgbBuff c b1 = hslToRgbBuff c b2 := by
  by_cases h : c.c1 = 0 <;> constructor <;>
    simp [hslToRgbBuff, hslToRgbSpec, h]

/-- Slots handed out by a run of acquisitions: consecutive indices starting
at the current bump index, with the physical pool length never shrinking. -/
theorem writeSlots_spec (n : ℕ) : ∀ st : PoolState,
    (writeSlots n st).1 = List.range' st.idx n ∧
    st.len ≤ (writeSlots n st).2.len := by
  induction n with
  | zero => intro st; exact ⟨rfl, le_refl _⟩
  | succ m ih =>
    intro st
    obtain ⟨ih1, ih2⟩ := ih (acquireColorBuffer st).2
    have hidx : (acquireColorBuffer st).2.idx = st.idx + 1 := by
      unfold acquireColorBuffer; split <;> rfl
    have hfst : (acquireColorBuffer st).1 = st.idx := by
      unfold acquireColorBuffer; split <;> rfl
    have hlen : st.len ≤ (acquireColorBuffer st).2.len := by
      unfold acquireColorBuffer
      split <;> simp
    constructor
    · show (acquireColorBuffer st).1
          :: (writeSlots m (acquireColorBuffer st).2).1
        = List.range' st.idx (m + 1)
      rw [hfst, ih1, hidx]
      rfl
    · exact le_trans hlen ih2

/-- C10: within one pipeline invocation (reset, then one acquisition per
emitted segment) the color-pool slots handed to the segments are exactly
`0, 1, …, count−1` — the bump index increases by one per acquisition, no
two segments share a slot — and the pool's physical length never
decreases. -/
theorem claim_C10 (X Y : List (List ℚ)) (z0 : List ℚ)
    (zrest : List (List ℚ)) (zCutoff zMin zMax : ℚ) (g : GradientState)
    (st : PoolState) :
    (runInvocation
        (pipelineSegments X Y z0 zrest zCutoff zMin zMax g).length st).1
      = List.range
          (pipelineSegments X Y z0 zrest zCutoff zMin zMax g).length ∧
    (runInvocation
        (pipelineSegments X Y z0 zrest zCutoff zMin zMax g).length st).1.Nodup
      ∧
    st.len ≤ (runInvocation
        (pipelineSegments X Y z0 zrest zCutoff zMin zMax g).length st).2.len
    := by
  have h := writeSlots_spec
    (pipelineSegments X Y z0 zrest zCutoff zMin zMax g).length
    (resetColorPool st)
  have hrw : (runInvocation
      (pipelineSegments X Y z0 zrest zCutoff zMin zMax g).length st).1
      = List.range
          (pipelineSegments X Y z0 zrest zCutoff zMin zMax g).length := by
    rw [show runInvocation
        (pipelineSegments X Y z0 zrest zCutoff zMin zMax g).length st
        = writeSlots
            (pipelineSegments X Y z0 zrest zCutoff zMin zMax g).length
            (resetColorPool st) from rfl, h.1]
    exact (List.range_eq_range' _).symm
  refine ⟨hrw, ?_, h.2⟩
  rw [hrw]
  exact List.nodup_range _

/-- Validation failure at any of the four gradient keys makes the parser
return `null`. -/
theorem parseAsGradients_eq_none (v : Json) (k : String)
    (hk : k ∈ gradientKeys) (h : checkGradientKey v k = false) :
    parseAsGradients v = none := by
  unfold parseAsGradients
  rw [if_neg]
  intro hall
  exact absurd (List.all_eq_true.mp hall k hk) (by simp [h])

/-- C5: serializing a `GradientState` and parsing it back recovers the same
structure, and the parser rejects (returns `null`, triggering the default
fallback) any payload with a missing gradient key, a low/high color array
of length other than 4, or a non-numeric array element. -/
theorem claim_C5 :
    (∀ gs : GradientState,
      parseAsGradients (serializeGradients gs) = some gs) ∧
    (∀ (v : Json) (k : String), k ∈ gradientKeys → jget v k = none →
      parseAsGradients v = none) ∧
    (∀ (v : Json) (k : String) (elems : List Json), k ∈ gradientKeys →
      (jget2 v k "low" = some (Json.arr elems)
        ∨ jget2 v k "high" = some (Json.arr elems)) →
      elems.length ≠ 4 → parseAsGradients v = none) ∧
    (∀ (v : Json) (k : String) (x : Json), k ∈ gradientKeys →
      x ∈ arrElems (jget2 v k "low") ++ arrElems (jget2 v k "high") →
      isNum x = false → parseAsGradients v = none) := by
  refine ⟨fun gs => rfl, ?_, ?_, ?_⟩
  · intro v k hk h
    apply parseAsGradients_eq_none v k hk
    simp [checkGradientKey, jget2, h, isArr4]
  · intro v k elems hk hor hlen
    apply parseAsGradients_eq_none v k hk
    rcases hor with h | h <;> simp [checkGradientKey, h, isArr4, hlen]
  · intro v k x hk hx hnum
    by_cases hchk : checkGradientKey v k = true
    · exfalso
      unfold checkGradientKey at hchk
      simp only [Bool.and_eq_true] at hchk
      have hall := hchk.2
      rw [List.all_eq_true] at hall
      have hxnum := hall x hx
      rw [hnum] at hxnum
      cases hxnum
    · exact parseAsGradients_eq_none v k hk (by simpa using hchk)

/-- Witness for C5 on concrete payloads: the sample configuration
round-trips; an empty object (missing keys), a 3-element low array, and a
string element each parse to `null`. -/
theorem claim_C5_witness :
    ("xBelow" ∈ gradientKeys ∧ jget (Json.obj []) "xBelow" = none ∧
      ([Json.num 1, Json.num 2, Json.num 3] : List Json).length ≠ 4 ∧
      isNum (Json.str "a") = false) ∧
    parseAsGradients (serializeGradients sampleGradients)
      = some sampleGradients ∧
    parseAsGradients (Json.obj []) = none ∧
    parseAsGradients (Json.obj [("xBelow", Json.obj
      [("low", Json.arr [Json.num 1, Json.num 2, Json.num 3])])]) = none ∧
    parseAsGradients (Json.obj [("xBelow", Json.obj
      [("low", Json.arr [Json.num 0, Json.num 0, Json.num 0, Json.str "a"]),
       ("high", Json.arr
         [Json.num 0, Json.num 0, Json.num 0, Json.num 0])])]) = none :=
  ⟨⟨List.mem_cons_self _ _, rfl, by decide, rfl⟩,
   claim_C5.1 sampleGradients,
   claim_C5.2.1 (Json.obj []) "xBelow" (List.mem_cons_self _ _) rfl,
   claim_C5.2.2.1 (Json.obj [("xBelow", Json.obj
       [("low", Json.arr [Json.num 1, Json.num 2, Json.num 3])])])
     "xBelow" [Json.num 1, Json.num 2, Json.num 3]
     (List.mem_cons_self _ _) (Or.inl rfl) (by decide),
   claim_C5.2.2.2 (Json.obj [("xBelow", Json.obj
       [("low", Json.arr [Json.num 0, Json.num 0, Json.num 0, Json.str "a"]),
        ("high", Json.arr
          [Json.num 0, Json.num 0, Json.num 0, Json.num 0])])])
     "xBelow" (Json.str "a") (List.mem_cons_self _ _)
     (List.mem_append.mpr (Or.inl (List.mem_cons_of_mem _
       (List.mem_cons_of_mem _ (List.mem_cons_of_mem _
         (List.mem_cons_self _ _)))))) rfl⟩

end DeckDatavis
